import Mathlib

/-
Shallow embedding of the survey response validation and analytics
aggregation engine (NestJS services: ResponsesService, AnalyticsService,
QuestionsService, CacheService) together with proofs of the behavioural
properties stated in the design document.

Modelling conventions:
* JavaScript answer values are modelled by the inductive `Value`
  (null, number, boolean, string).  `undefined` is modelled by absence
  (an `Option` returned by the object-lookup function).  Array-valued
  answers are outside the modelled fragment (no claim exercises them).
* JavaScript numbers are modelled by `ℚ`; `NaN` is modelled by `none`
  in the type `JsNum := Option ℚ`.  The numeric coercion `Number(x)`
  is embedded by `jsToNumber`, whose string branch implements the
  decimal fragment of the ECMAScript ToNumber conversion (optional
  sign, digits, optional fraction, surrounding whitespace; the
  hexadecimal / exponent / Infinity forms are outside the fragment).
* JavaScript plain objects used as maps are modelled by association
  lists `List (String × α)` in insertion order, with `objGet`,
  `objSet` and `objDel` giving the property access semantics.
-/

namespace SurveyApp

/-- Value of a submitted answer: the JSON values that can appear in the
`answers` map of a response (arrays excluded, see module comment). -/
inductive Value where
  | vNull : Value
  | vNum (q : ℚ) : Value
  | vBool (b : Bool) : Value
  | vStr (s : String) : Value
deriving DecidableEq, Repr

/-- JavaScript truthiness of an answer value (`null`, `0`, `false` and the
empty string are falsy). -/
def truthy : Value → Bool
  | .vNull => false
  | .vNum q => q != 0
  | .vBool b => b
  | .vStr s => s != ""

/-- Truthiness of a possibly-absent value; absence models `undefined`,
which is falsy. -/
def truthyOpt : Option Value → Bool
  | none => false
  | some v => truthy v

/-- Numeric value of a decimal digit character. -/
def digitVal (c : Char) : Option ℕ :=
  if c.isDigit then some (c.toNat - 48) else none

/-- Parse a nonempty all-digit character list as a natural number. -/
def parseNatDigits (cs : List Char) : Option ℕ :=
  if cs.isEmpty then none
  else cs.foldlM (fun n c => (digitVal c).map (fun d => n * 10 + d)) 0

/-- Parse an unsigned decimal numeral (digits, optional fraction part). -/
def parseUnsigned (cs : List Char) : Option ℚ :=
  match cs.splitOn '.' with
  | [intPart] => (parseNatDigits intPart).map (fun n => (n : ℚ))
  | [intPart, fracPart] =>
      if intPart.isEmpty && fracPart.isEmpty then none
      else
        (if intPart.isEmpty then some 0 else parseNatDigits intPart).bind
          (fun i =>
            (if fracPart.isEmpty then some 0 else parseNatDigits fracPart).map
              (fun f => (i : ℚ) + (f : ℚ) / ((10 : ℚ) ^ fracPart.length)))
  | _ => none

/-- Strip leading and trailing whitespace from a character list. -/
def trimChars (cs : List Char) : List Char :=
  ((cs.dropWhile Char.isWhitespace).reverse.dropWhile Char.isWhitespace).reverse

/-- String branch of the ECMAScript ToNumber conversion on the decimal
fragment: whitespace-trimmed empty string gives `0`, otherwise an optional
sign followed by a decimal numeral; anything else is NaN (`none`). -/
def jsStringToNumber (s : String) : Option ℚ :=
  match trimChars s.toList with
  | [] => some 0
  | '+' :: rest => parseUnsigned rest
  | '-' :: rest => (parseUnsigned rest).map (fun q => -q)
  | cs => parseUnsigned cs

/-- ECMAScript `Number(x)` on answer values; `none` models NaN. -/
def jsToNumber : Value → Option ℚ
  | .vNull => some 0
  | .vNum q => some q
  | .vBool b => some (if b then 1 else 0)
  | .vStr s => jsStringToNumber s

/-- ECMAScript `String(x)` on answer values (used when a value is used as
an object property key).  Non-integer rationals are rendered with the
`ℚ` printer; that branch is outside every behaviour the claims exercise. -/
def jsToString : Value → String
  | .vNull => "null"
  | .vNum q => if q.den = 1 then toString q.num else toString q
  | .vBool b => if b then "true" else "false"
  | .vStr s => s

/-- JavaScript number with NaN: `none` is NaN. -/
abbrev JsNum := Option ℚ

/-- JavaScript addition (NaN propagates). -/
def jsAdd : JsNum → JsNum → JsNum
  | some a, some b => some (a + b)
  | _, _ => none

/-- Binary `Math.min` (NaN propagates). -/
def jsMin2 : JsNum → JsNum → JsNum
  | some a, some b => some (min a b)
  | _, _ => none

/-- Binary `Math.max` (NaN propagates). -/
def jsMax2 : JsNum → JsNum → JsNum
  | some a, some b => some (max a b)
  | _, _ => none

/-- Embedding of `values.reduce((a, b) => a + b, 0)`. -/
def jsListSum (l : List JsNum) : JsNum :=
  l.foldl jsAdd (some 0)

/-- Embedding of `Math.min(...values)` on a nonempty list. -/
def jsMinList (l : List JsNum) : JsNum :=
  match l with
  | [] => none
  | x :: xs => xs.foldl jsMin2 x

/-- Embedding of `Math.max(...values)` on a nonempty list. -/
def jsMaxList (l : List JsNum) : JsNum :=
  match l with
  | [] => none
  | x :: xs => xs.foldl jsMax2 x

/-- Division of a JavaScript number by a positive count. -/
def jsDivNat (a : JsNum) (n : ℕ) : JsNum :=
  a.map (fun q => q / (n : ℚ))

/-- Left-pad a two-digit fraction field. -/
def pad2 (k : ℕ) : String :=
  if k < 10 then "0" ++ toString k else toString k

/-- Embedding of `x.toFixed(2)` on rationals: round to the nearest
hundredth (ties up) and print with exactly two fraction digits. -/
def toFixed2 (q : ℚ) : String :=
  let scaled : ℤ := round (q * 100)
  let n : ℕ := scaled.natAbs
  (if scaled < 0 then "-" else "") ++ toString (n / 100) ++ "." ++ pad2 (n % 100)

/-- Embedding of `x.toFixed(2)` on a possibly-NaN number. -/
def jsToFixed2 : JsNum → String
  | none => "NaN"
  | some q => toFixed2 q

/-- Property read on a JavaScript object modelled as an association list:
`some` the stored value, `none` models `undefined`. -/
def objGet : List (String × α) → String → Option α
  | [], _ => none
  | p :: m, k => if p.1 = k then some p.2 else objGet m k

/-- Property write on a JavaScript object: update in place when the key
exists, append otherwise (insertion-order semantics). -/
def objSet (m : List (String × α)) (k : String) (v : α) : List (String × α) :=
  if ∃ p ∈ m, p.1 = k then
    m.map (fun p => if p.1 = k then (k, v) else p)
  else m ++ [(k, v)]

/-- Key deletion (semantics of the Redis `del` used by `CacheService.del`). -/
def objDel (m : List (String × α)) (k : String) : List (String × α) :=
  m.filter (fun p => decide (p.1 ≠ k))

/-- Question types named by the system (`QuestionType` enumeration plus
the two extra types named in the design document). -/
inductive QType where
  | multiple_choice : QType
  | multiple_selection : QType
  | yes_no : QType
  | text : QType
  | scale : QType
  | date : QType
deriving DecidableEq, Repr

/-- Stored question document as consumed by `ResponsesService` and
`AnalyticsService`.  The `validation` bounds are present on every scale
question (guaranteed by the schema-level check at creation time), so they
are carried as plain fields `vmin`/`vmax`. -/
structure Question where
  id : String
  text : String
  qtype : QType
  options : List String
  required : Bool
  vmin : ℚ
  vmax : ℚ
deriving DecidableEq, Repr

/-- Stored response document (fields used by the engine). -/
structure Response where
  surveyId : String
  answers : List (String × Value)
  submittedAt : ℤ
deriving DecidableEq, Repr

/-- Input of `QuestionsService.validateQuestion` (a `CreateQuestionDto`):
`options` and the `validation` bounds are optional; `validation?.min`
collapses the absence of `validation` and the absence of `min` into one
`none`, which is exactly what the optional-chaining access observes. -/
structure CreateQuestionDto where
  surveyId : String
  text : String
  qtype : QType
  options : Option (List String)
  required : Bool
  order : ℚ
  vmin : Option ℚ
  vmax : Option ℚ
deriving DecidableEq, Repr

/-- Embedding of `QuestionsService.validateQuestion`.  Note that the
presence test on the bounds is JavaScript truthiness
(`!question.validation?.min || !question.validation?.max`), so a bound
equal to `0` fails the presence test. -/
def validateQuestion (q : CreateQuestionDto) : Except String Unit :=
  match q.qtype with
  | .multiple_choice =>
      match q.options with
      | none => .error "Multiple choice questions must have at least 2 options"
      | some opts =>
          if opts.length < 2 then
            .error "Multiple choice questions must have at least 2 options"
          else .ok ()
  | .scale =>
      match q.vmin, q.vmax with
      | some mn, some mx =>
          if mn == 0 || mx == 0 then
            .error "Scale questions must have min and max values"
          else if mn ≥ mx then
            .error "Min value must be less than max value"
          else .ok ()
      | _, _ => .error "Scale questions must have min and max values"
  | _ => .ok ()

/-- Lookup in the `Map` that `validateResponse` builds from the question
list (`new Map(questions.map(q => [q.id, q]))`): on duplicate ids the
last occurrence wins. -/
def lookupQuestion (qs : List Question) (k : String) : Option Question :=
  match qs with
  | [] => none
  | q :: rest =>
      match lookupQuestion rest k with
      | some r => some r
      | none => if q.id = k then some q else none

/-- Per-entry checks of the first loop of `ResponsesService.validateResponse`
on one `(questionId, answer)` pair of the submitted `answers` object:
question resolution, required/falsy check, then the type-specific check. -/
def checkAnswer (qs : List Question) (qid : String) (v : Value) : Option String :=
  match lookupQuestion qs qid with
  | none => some ("Question " ++ qid ++ " not found")
  | some q =>
      if q.required && !(truthy v) then
        some ("Question \"" ++ q.text ++ "\" is required")
      else
        match q.qtype with
        | .multiple_choice =>
            if ∃ opt ∈ q.options, v = Value.vStr opt then none
            else some ("Invalid option for question \"" ++ q.text ++ "\"")
        | .scale =>
            match jsToNumber v with
            | none =>
                some ("Answer must be between " ++ toString q.vmin ++ " and "
                      ++ toString q.vmax)
            | some x =>
                if x < q.vmin || q.vmax < x then
                  some ("Answer must be between " ++ toString q.vmin ++ " and "
                        ++ toString q.vmax)
                else none
        | _ => none

/-- First loop of `validateResponse`: iterate `Object.entries(answers)` in
insertion order and surface the first failing check. -/
def firstPassErr (qs : List Question) (ans : List (String × Value)) : Option String :=
  ans.findSome? (fun p => checkAnswer qs p.1 p.2)

/-- Second loop of `validateResponse`: every required question must have a
truthy value in `answers` (absence reads as `undefined`, which is falsy). -/
def requiredErr (qs : List Question) (ans : List (String × Value)) : Option String :=
  (qs.filter (fun q => q.required)).findSome? (fun q =>
    if truthyOpt (objGet ans q.id) then none
    else some ("Required question \"" ++ q.text ++ "\" not answered"))

/-- Embedding of `ResponsesService.validateResponse`: `.ok ()` models a
return without throwing, `.error e` models `throw new BadRequestException(e)`
(the first loop runs to completion before the required-question pass). -/
def validateResponse (qs : List Question) (ans : List (String × Value)) :
    Except String Unit :=
  match firstPassErr qs ans with
  | some e => .error e
  | none =>
      match requiredErr qs ans with
      | some e => .error e
      | none => .ok ()

/-- JavaScript value that is either a plain number or a formatted string
(shape of `average` and of the `percentages` entries, which hold the
number `0` in the degenerate case and a `toFixed(2)` string otherwise). -/
inductive NumOrStr where
  | num (q : ℚ) : NumOrStr
  | str (s : String) : NumOrStr
deriving DecidableEq, Repr

/-- Result record of `calculateMultipleChoice`. -/
structure MCResult where
  counts : List (String × ℕ)
  percentages : List (String × NumOrStr)
  total : ℕ
deriving DecidableEq, Repr

/-- Zero-initialised counts object
(`question.options.forEach((opt) => (counts[opt] = 0))`). -/
def initCounts (options : List String) : List (String × ℕ) :=
  options.foldl (fun m opt => objSet m opt 0) []

/-- Body of the counting loop of `calculateMultipleChoice`: a response
contributes when its answer for the question is truthy and its string
form is an own property of the counts object. -/
def mcStep (question : Question) (cnts : List (String × ℕ)) (resp : Response) :
    List (String × ℕ) :=
  match objGet resp.answers question.id with
  | none => cnts
  | some ans =>
      if truthy ans then
        match objGet cnts (jsToString ans) with
        | some c => objSet cnts (jsToString ans) (c + 1)
        | none => cnts
      else cnts

/-- Counting loop of `calculateMultipleChoice`. -/
def mcCounts (question : Question) (responses : List Response) :
    List (String × ℕ) :=
  responses.foldl (mcStep question) (initCounts question.options)

/-- Embedding of `AnalyticsService.calculateMultipleChoice`. -/
def calculateMultipleChoice (question : Question) (responses : List Response) :
    MCResult :=
  let counts := mcCounts question responses
  let total : ℕ := (counts.map (fun p => p.2)).sum
  { counts := counts
    percentages := counts.map (fun p =>
      (p.1,
        if total > 0 then NumOrStr.str (toFixed2 ((p.2 : ℚ) / (total : ℚ) * 100))
        else NumOrStr.num 0))
    total := total }

/-- Result record of `calculateScale` (`distribution` is absent in the
zero-answers branch, hence the `Option`). -/
structure ScaleResult where
  average : NumOrStr
  min : JsNum
  max : JsNum
  count : ℕ
  distribution : Option (List (ℚ × ℕ))
deriving DecidableEq, Repr

/-- Contribution of one response to the value list of `calculateScale`:
the `Number`-coerced answer when it is neither `undefined` (absent) nor
`null`, nothing otherwise.  A non-numeric string coerces to NaN and is
still contributed (as `none`). -/
def scaleAnswerVal (question : Question) (resp : Response) : Option JsNum :=
  match objGet resp.answers question.id with
  | none => none
  | some Value.vNull => none
  | some v => some (jsToNumber v)

/-- Value-collection loop of `calculateScale`. -/
def scaleValues (question : Question) (responses : List Response) :
    List JsNum :=
  responses.foldl
    (fun vals resp =>
      match scaleAnswerVal question resp with
      | none => vals
      | some x => vals ++ [x])
    []

/-- Index sequence of the distribution loop
`for (let i = min; i <= max; i++)`: the keys `min, min + 1, ...` as long
as they do not exceed `max`. -/
def distRange (mn mx : ℚ) : List ℚ :=
  if mn ≤ mx then
    (List.range (Int.toNat (Rat.floor (mx - mn)) + 1)).map (fun k : ℕ => mn + (k : ℚ))
  else []

/-- Embedding of `AnalyticsService.calculateScale`. -/
def calculateScale (question : Question) (responses : List Response) :
    ScaleResult :=
  let values := scaleValues question responses
  if values.isEmpty then
    { average := .num 0, min := some 0, max := some 0, count := 0,
      distribution := none }
  else
    { average := .str (jsToFixed2 (jsDivNat (jsListSum values) values.length))
      min := jsMinList values
      max := jsMaxList values
      count := values.length
      distribution := some ((distRange question.vmin question.vmax).map
        (fun i => (i, (values.filter (fun v => decide (v = some i))).length))) }

/-- Result record of `getTextResponses` (each collected entry pairs the
verbatim answer with the response's submission time). -/
structure TextResult where
  answers : List (Value × ℤ)
  count : ℕ
deriving DecidableEq, Repr

/-- Embedding of `AnalyticsService.getTextResponses`. -/
def getTextResponses (question : Question) (responses : List Response) :
    TextResult :=
  let answers := responses.foldl
    (fun acc resp =>
      match objGet resp.answers question.id with
      | none => acc
      | some v => if truthy v then acc ++ [(v, resp.submittedAt)] else acc)
    []
  { answers := answers, count := answers.length }

/-- Result record of `getDateResponses`. -/
structure DateResult where
  dates : List Value
  count : ℕ
deriving DecidableEq, Repr

/-- Embedding of `AnalyticsService.getDateResponses`. -/
def getDateResponses (question : Question) (responses : List Response) :
    DateResult :=
  let dates := responses.foldl
    (fun acc resp =>
      match objGet resp.answers question.id with
      | none => acc
      | some v => if truthy v then acc ++ [v] else acc)
    []
  { dates := dates, count := dates.length }

/-- Per-type shape of the `data` field of a per-question statistics
record; `empty` is the untouched `{}` of the unhandled switch cases. -/
inductive StatData where
  | empty : StatData
  | mc (r : MCResult) : StatData
  | scale (r : ScaleResult) : StatData
  | text (r : TextResult) : StatData
  | date (r : DateResult) : StatData
deriving DecidableEq, Repr

/-- Per-question record assembled by `calculateStats`. -/
structure QuestionStats where
  question : String
  qtype : QType
  totalResponses : ℕ
  data : StatData
deriving DecidableEq, Repr

/-- Aggregated report returned by `calculateStats`. -/
structure Report where
  totalResponses : ℕ
  questions : List (String × QuestionStats)
deriving DecidableEq, Repr

/-- Dispatch of the `switch (question.type)` of `calculateStats`; the
types without a case leave `data` as the initial `{}`. -/
def statDataFor (q : Question) (responses : List Response) : StatData :=
  match q.qtype with
  | .multiple_choice => .mc (calculateMultipleChoice q responses)
  | .scale => .scale (calculateScale q responses)
  | .text => .text (getTextResponses q responses)
  | .date => .date (getDateResponses q responses)
  | _ => .empty

/-- Per-question record as it stands after the loop body of
`calculateStats` (initialisation, switch, then the `totalResponses`
assignment). -/
def mkQuestionStats (q : Question) (responses : List Response) : QuestionStats :=
  { question := q.text
    qtype := q.qtype
    totalResponses := responses.length
    data := statDataFor q responses }

/-- Embedding of `AnalyticsService.calculateStats`. -/
def calculateStats (questions : List Question) (responses : List Response) :
    Report :=
  { totalResponses := responses.length
    questions := questions.foldl
      (fun m q => objSet m q.id (mkQuestionStats q responses)) [] }

/-- Embedding of `AnalyticsService.convertToCSV`: the produced `lines`
array holds the single header row (the body marked TODO in the source
appends nothing), so the join returns just that row. -/
def convertToCSV (results : Report) : String :=
  let headers := ["Response ID", "Submitted At"]
    ++ results.questions.map (fun p => p.2.question)
  String.intercalate "\n" [String.intercalate "," headers]

/-- State shared by `ResponsesService.create` and
`AnalyticsService.getResults`: the `responses` collection of the document
store and the two cache key namespaces the engine reads and invalidates
(`analytics:<surveyId>` and `responses:<surveyId>`), modelled as one
typed association list per namespace. -/
structure AnalyticsState where
  store : List Response
  analyticsCache : List (String × Report)
  responsesCache : List (String × List Response)
deriving DecidableEq, Repr

/-- Embedding of the accepted path of `ResponsesService.create` (after the
survey lookup): validate, append the response document, then delete both
cache keys of the survey before returning.  A validation failure
propagates as `.error` and leaves the state untouched. -/
def createResponse (questions : List Question) (st : AnalyticsState)
    (surveyId : String) (ans : List (String × Value)) (now : ℤ) :
    Except String AnalyticsState :=
  match validateResponse questions ans with
  | .error e => .error e
  | .ok _ =>
      .ok { store := st.store ++ [{ surveyId := surveyId, answers := ans,
                                    submittedAt := now }]
            analyticsCache := objDel st.analyticsCache surveyId
            responsesCache := objDel st.responsesCache surveyId }

/-- Embedding of `AnalyticsService.getResults` (after the ownership
check): cache-aside read of `analytics:<surveyId>`, recomputation from
the fetched questions and responses on a miss, then the cache write. -/
def getResults (questions : List Question) (st : AnalyticsState)
    (surveyId : String) : Report × AnalyticsState :=
  match objGet st.analyticsCache surveyId with
  | some r => (r, st)
  | none =>
      let responses := st.store.filter (fun r => decide (r.surveyId = surveyId))
      let results := calculateStats questions responses
      (results,
       { st with analyticsCache := objSet st.analyticsCache surveyId results })

/-- Comparison `a <= b` on JavaScript numbers: any comparison involving
NaN is false. -/
def jsLe : JsNum → JsNum → Bool
  | some a, some b => decide (a ≤ b)
  | _, _ => false

/-- Integers of the inclusive interval `[mn, mx]`, as rationals, in
increasing order (the reference reading of "distribution keys span the
integers of `[schema.min, schema.max]`"). -/
def intRangeList (mn mx : ℚ) : List ℚ :=
  (List.range (Int.toNat (Rat.floor mx - Rat.ceil mn + 1))).map
    (fun k : ℕ => ((Rat.ceil mn + (k : ℤ) : ℤ) : ℚ))

/-- Reference reading of the ordering sentence of the design document:
the first violation among the submitted answers when they are visited in
the order of the schema list. -/
def specOrderFirstErr (qs : List Question) (ans : List (String × Value)) :
    Option String :=
  qs.findSome? (fun q =>
    match objGet ans q.id with
    | some v => checkAnswer qs q.id v
    | none => none)

/-- Demo multiple-choice question used by concrete witnesses. -/
def demoQ1 : Question :=
  { id := "q1", text := "Color", qtype := .multiple_choice,
    options := ["Red", "Blue"], required := true, vmin := 0, vmax := 0 }

/-- Demo scale question with bounds 1..5 used by concrete witnesses. -/
def demoQ2 : Question :=
  { id := "q2", text := "Rate", qtype := .scale, options := [],
    required := false, vmin := 1, vmax := 5 }

/-- Demo yes-no question (a type without a calculator case). -/
def demoQ9 : Question :=
  { id := "q3", text := "Agree", qtype := .yes_no, options := [],
    required := false, vmin := 0, vmax := 0 }

/-- Demo survey schema list. -/
def demoQs : List Question := [demoQ1, demoQ2]

/-- Demo response answering the multiple-choice question `q1`. -/
def mcResp (v : Value) : Response :=
  { surveyId := "s1", answers := [("q1", v)], submittedAt := 0 }

/-- Demo response answering the scale question `q2`. -/
def scaleResp (v : Value) : Response :=
  { surveyId := "s1", answers := [("q2", v)], submittedAt := 0 }

/-- Demo stored response (pre-existing in the document store). -/
def demoResp0 : Response := mcResp (Value.vStr "Blue")

/-- Demo accepted answer set submitted through `create`. -/
def demoAnsC5 : List (String × Value) :=
  [("q1", Value.vStr "Red"), ("q2", Value.vNum 3)]

/-- Response document appended for the demo submission. -/
def demoRespNew : Response :=
  { surveyId := "s1", answers := demoAnsC5, submittedAt := 5 }

/-- A stale cached report (predating the demo submission). -/
def demoReport0 : Report := { totalResponses := 1, questions := [] }

/-- System state before the demo submission: one stored response and both
cache keys populated. -/
def demoSt0 : AnalyticsState :=
  { store := [demoResp0],
    analyticsCache := [("s1", demoReport0)],
    responsesCache := [("s1", [demoResp0])] }

/-- System state after the demo submission. -/
def demoStAfter : AnalyticsState :=
  { store := [demoResp0, demoRespNew], analyticsCache := [], responsesCache := [] }

/-- Scale question definition with `min = 0`: both bounds present and
`min < max`. -/
def dtoC8 : CreateQuestionDto :=
  { surveyId := "s1", text := "Rate", qtype := .scale, options := none,
    required := true, order := 1, vmin := some 0, vmax := some 10 }

/-- One response whose scale answer is a non-numeric string. -/
def demoRsNaN : List Response := [scaleResp (Value.vStr "abc")]

/-- Three numeric scale answers (the worked example of the design
document). -/
def demoRsC3 : List Response :=
  [scaleResp (Value.vNum 5), scaleResp (Value.vNum 4), scaleResp (Value.vNum 5)]

/-- An empty-string scale answer next to a numeric one. -/
def demoRsC10 : List Response :=
  [scaleResp (Value.vStr ""), scaleResp (Value.vNum 3)]

/-- Responses with only null or absent scale answers. -/
def demoRsNull : List Response :=
  [scaleResp Value.vNull, { surveyId := "s1", answers := [], submittedAt := 0 }]

/-- One response whose `q1` answer matches no declared option. -/
def demoRespDirty : Response := mcResp (Value.vStr "Purple")

theorem objGet_nil (k : String) : objGet ([] : List (String × α)) k = none := rfl

theorem objGet_cons (p : String × α) (m : List (String × α)) (k : String) :
    objGet (p :: m) k = if p.1 = k then some p.2 else objGet m k := rfl

theorem objSet_cons (p : String × α) (m : List (String × α)) (k : String) (v : α) :
    objSet (p :: m) k v =
      if p.1 = k then (k, v) :: m.map (fun q => if q.1 = k then (k, v) else q)
      else p :: objSet m k v := by
  by_cases h : p.1 = k
  · have hex : ∃ q ∈ p :: m, q.1 = k := ⟨p, List.mem_cons_self p m, h⟩
    simp [objSet, hex, h]
  · by_cases h2 : ∃ q ∈ m, q.1 = k
    · have hex : ∃ q ∈ p :: m, q.1 = k := by
        obtain ⟨q, hq, hqk⟩ := h2
        exact ⟨q, List.mem_cons_of_mem p hq, hqk⟩
      simp [objSet, hex, h, h2]
    · have hex : ¬ ∃ q ∈ p :: m, q.1 = k := by
        rintro ⟨q, hq, hqk⟩
        rcases List.mem_cons.mp hq with rfl | hq2
        · exact h hqk
        · exact h2 ⟨q, hq2, hqk⟩
      simp [objSet, hex, h, h2]

theorem objGet_map_update_ne (m : List (String × α)) (k k2 : String) (v : α)
    (h : k2 ≠ k) :
    objGet (m.map (fun q => if q.1 = k2 then (k2, v) else q)) k = objGet m k := by
  induction m with
  | nil => rfl
  | cons p rest ih =>
      by_cases hp : p.1 = k2
      · have hpk : p.1 ≠ k := by rw [hp]; exact h
        simp [objGet_cons, hp, hpk, h, ih]
      · simp [objGet_cons, hp, ih]

theorem objGet_objSet_self (m : List (String × α)) (k : String) (v : α) :
    objGet (objSet m k v) k = some v := by
  induction m with
  | nil => simp [objSet, objGet_cons]
  | cons p rest ih =>
      rw [objSet_cons]
      by_cases h : p.1 = k
      · simp [h, objGet_cons]
      · simp only [h, if_false]
        rw [objGet_cons, ih]
        simp [h]

theorem objGet_objSet_ne (m : List (String × α)) (k k2 : String) (v : α)
    (h : k2 ≠ k) : objGet (objSet m k2 v) k = objGet m k := by
  induction m with
  | nil => simp [objSet, objGet_cons, h]
  | cons p rest ih =>
      rw [objSet_cons]
      by_cases hp : p.1 = k2
      · rw [if_pos hp, objGet_cons]
        rw [if_neg (show ((k2, v) : String × α).1 ≠ k from h)]
        rw [objGet_map_update_ne rest k k2 v h]
        have hpk : p.1 ≠ k := by rw [hp]; exact h
        simp [objGet_cons, hpk]
      · rw [if_neg hp]
        simp only [objGet_cons, ih]

theorem objGet_objSet_isSome (m : List (String × α)) (k k2 : String) (v : α) :
    (objGet (objSet m k2 v) k).isSome =
      ((objGet m k).isSome || decide (k2 = k)) := by
  by_cases h : k2 = k
  · subst h
    simp [objGet_objSet_self]
  · rw [objGet_objSet_ne m k k2 v h]
    simp [h]

theorem objDel_cons (p : String × α) (m : List (String × α)) (k : String) :
    objDel (p :: m) k = if p.1 = k then objDel m k else p :: objDel m k := by
  by_cases h : p.1 = k <;> simp [objDel, List.filter_cons, h]

theorem objGet_objDel_self (m : List (String × α)) (k : String) :
    objGet (objDel m k) k = none := by
  induction m with
  | nil => rfl
  | cons p rest ih =>
      rw [objDel_cons]
      by_cases h : p.1 = k
      · simp [h, ih]
      · simp [h, objGet_cons, ih]

theorem lookupQuestion_mem {qs : List Question} {k : String} {q : Question}
    (h : lookupQuestion qs k = some q) : q ∈ qs := by
  induction qs with
  | nil => simp [lookupQuestion] at h
  | cons p rest ih =>
      simp only [lookupQuestion] at h
      cases hr : lookupQuestion rest k with
      | some r =>
          rw [hr] at h
          injection h with h
          subst h
          exact List.mem_cons_of_mem _ (ih hr)
      | none =>
          rw [hr] at h
          by_cases hk : p.id = k
          · rw [if_pos hk] at h
            injection h with h
            subst h
            exact List.mem_cons_self _ _
          · rw [if_neg hk] at h
            cases h

theorem lookupQuestion_id {qs : List Question} {k : String} {q : Question}
    (h : lookupQuestion qs k = some q) : q.id = k := by
  induction qs with
  | nil => simp [lookupQuestion] at h
  | cons p rest ih =>
      simp only [lookupQuestion] at h
      cases hr : lookupQuestion rest k with
      | some r =>
          rw [hr] at h
          injection h with h
          subst h
          exact ih hr
      | none =>
          rw [hr] at h
          by_cases hk : p.id = k
          · rw [if_pos hk] at h
            injection h with h
            subst h
            exact hk
          · rw [if_neg hk] at h
            cases h

theorem objGet_eq_of_mem_nodup {ans : List (String × α)} {k : String} {v : α}
    (hmem : (k, v) ∈ ans) (hnd : (ans.map Prod.fst).Nodup) :
    objGet ans k = some v := by
  induction ans with
  | nil => cases hmem
  | cons p rest ih =>
      rw [List.map_cons, List.nodup_cons] at hnd
      obtain ⟨hp, hnd⟩ := hnd
      rcases List.mem_cons.mp hmem with heq | hmem2
      · cases heq
        simp [objGet_cons]
      · by_cases hk : p.1 = k
        · exfalso
          apply hp
          rw [hk]
          exact List.mem_map_of_mem Prod.fst hmem2
        · rw [objGet_cons, if_neg hk]
          exact ih hmem2 hnd

/-- Declarative reading of the per-entry checks of the first validation
loop: the entry passes exactly when its question id resolves, a required
question has a truthy value, a multiple-choice answer is one of the
declared options and a scale answer coerces to a number inside the
declared bounds. -/
theorem checkAnswer_eq_none_iff (qs : List Question) (qid : String) (v : Value) :
    checkAnswer qs qid v = none ↔
      ∃ q, lookupQuestion qs qid = some q
        ∧ (q.required = true → truthy v = true)
        ∧ (q.qtype = QType.multiple_choice → ∃ opt ∈ q.options, v = Value.vStr opt)
        ∧ (q.qtype = QType.scale →
            ∃ x, jsToNumber v = some x ∧ q.vmin ≤ x ∧ x ≤ q.vmax) := by
  cases hl : lookupQuestion qs qid with
  | none =>
      simp only [checkAnswer, hl]
      constructor
      · intro h
        cases h
      · rintro ⟨q, hq, -⟩
        cases hq
  | some q =>
      simp only [checkAnswer, hl]
      by_cases hr : (q.required && !(truthy v)) = true
      · rw [if_pos hr]
        simp only [Bool.and_eq_true, Bool.not_eq_eq_eq_not, Bool.not_true] at hr
        constructor
        · intro h
          cases h
        · rintro ⟨q2, hq2, h1, -, -⟩
          injection hq2 with e
          subst e
          simp [h1 hr.1] at hr
      · rw [if_neg hr]
        have hreq : q.required = true → truthy v = true := by
          intro h1
          by_contra h2
          apply hr
          simp [h1, h2]
        cases hq : q.qtype with
        | multiple_choice =>
            by_cases hopt : ∃ opt ∈ q.options, v = Value.vStr opt
            · rw [if_pos hopt]
              constructor
              · rintro -
                refine ⟨q, rfl, hreq, fun _ => hopt, fun hsc => ?_⟩
                rw [hq] at hsc
                cases hsc
              · rintro -
                rfl
            · rw [if_neg hopt]
              constructor
              · intro h
                cases h
              · rintro ⟨q2, hq2, -, h2, -⟩
                injection hq2 with e
                subst e
                exact absurd (h2 hq) hopt
        | scale =>
            cases hn : jsToNumber v with
            | none =>
                constructor
                · intro h
                  cases h
                · rintro ⟨q2, hq2, -, -, h3⟩
                  injection hq2 with e
                  subst e
                  rcases h3 hq with ⟨x, hx, -⟩
                  cases hx
            | some x =>
                simp only []
                by_cases hx : (x < q.vmin || q.vmax < x) = true
                · rw [if_pos hx]
                  simp only [Bool.or_eq_true, decide_eq_true_eq] at hx
                  constructor
                  · intro h
                    cases h
                  · rintro ⟨q2, hq2, -, -, h3⟩
                    injection hq2 with e
                    subst e
                    rcases h3 hq with ⟨x2, hx2, ha, hb⟩
                    injection hx2 with e2
                    subst e2
                    rcases hx with hlt | hlt
                    · exact absurd ha (not_le.mpr hlt)
                    · exact absurd hb (not_le.mpr hlt)
                · rw [if_neg hx]
                  simp only [Bool.or_eq_true, decide_eq_true_eq, not_or, not_lt] at hx
                  constructor
                  · rintro -
                    refine ⟨q, rfl, hreq, fun hmc => ?_, fun _ => ⟨x, rfl, hx.1, hx.2⟩⟩
                    rw [hq] at hmc
                    cases hmc
                  · rintro -
                    rfl
        | multiple_selection =>
            constructor
            · rintro -
              refine ⟨q, rfl, hreq, fun hmc => ?_, fun hsc => ?_⟩
              · rw [hq] at hmc
                cases hmc
              · rw [hq] at hsc
                cases hsc
            · rintro -
              rfl
        | yes_no =>
            constructor
            · rintro -
              refine ⟨q, rfl, hreq, fun hmc => ?_, fun hsc => ?_⟩
              · rw [hq] at hmc
                cases hmc
              · rw [hq] at hsc
                cases hsc
            · rintro -
              rfl
        | text =>
            constructor
            · rintro -
              refine ⟨q, rfl, hreq, fun hmc => ?_, fun hsc => ?_⟩
              · rw [hq] at hmc
                cases hmc
              · rw [hq] at hsc
                cases hsc
            · rintro -
              rfl
        | date =>
            constructor
            · rintro -
              refine ⟨q, rfl, hreq, fun hmc => ?_, fun hsc => ?_⟩
              · rw [hq] at hmc
                cases hmc
              · rw [hq] at hsc
                cases hsc
            · rintro -
              rfl

theorem validateResponse_ok_parts (qs : List Question) (ans : List (String × Value)) :
    validateResponse qs ans = .ok () ↔
      firstPassErr qs ans = none ∧ requiredErr qs ans = none := by
  unfold validateResponse
  cases firstPassErr qs ans <;> cases requiredErr qs ans <;> simp

theorem firstPassErr_eq_none_iff (qs : List Question) (ans : List (String × Value)) :
    firstPassErr qs ans = none ↔ ∀ p ∈ ans, checkAnswer qs p.1 p.2 = none := by
  simp [firstPassErr]

theorem requiredErr_eq_none_iff (qs : List Question) (ans : List (String × Value)) :
    requiredErr qs ans = none ↔
      ∀ q ∈ qs, q.required = true → truthyOpt (objGet ans q.id) = true := by
  unfold requiredErr
  rw [List.findSome?_eq_none_iff]
  constructor
  · intro h q hq hreq
    have hmem : q ∈ qs.filter (fun q => q.required) := by
      rw [List.mem_filter]
      exact ⟨hq, hreq⟩
    have := h q hmem
    by_contra h2
    rw [if_neg h2] at this
    cases this
  · intro h q hq
    rw [List.mem_filter] at hq
    rw [if_pos (h q hq.1 hq.2)]

/-- C1: `validateResponse` accepts a submission exactly when every
submitted question id resolves against the schema list, every required
question has a truthy value among the answers, every answer to a
multiple-choice question is one of the declared options, and every
answer to a scale question coerces to a number inside the declared
bounds.  The answers map has no duplicate keys, as JavaScript object
entries cannot. -/
theorem claim_C1_accept_iff (qs : List Question) (ans : List (String × Value))
    (hnd : (ans.map Prod.fst).Nodup) :
    validateResponse qs ans = .ok () ↔
      ((∀ p ∈ ans, ∃ q, lookupQuestion qs p.1 = some q
          ∧ (q.qtype = QType.multiple_choice → ∃ opt ∈ q.options, p.2 = Value.vStr opt)
          ∧ (q.qtype = QType.scale →
              ∃ x, jsToNumber p.2 = some x ∧ q.vmin ≤ x ∧ x ≤ q.vmax))
       ∧ (∀ q ∈ qs, q.required = true → truthyOpt (objGet ans q.id) = true)) := by
  rw [validateResponse_ok_parts, firstPassErr_eq_none_iff, requiredErr_eq_none_iff]
  constructor
  · rintro ⟨h1, h2⟩
    refine ⟨?_, h2⟩
    intro p hp
    rcases (checkAnswer_eq_none_iff qs p.1 p.2).mp (h1 p hp) with ⟨q, hq, -, hmc, hsc⟩
    exact ⟨q, hq, hmc, hsc⟩
  · rintro ⟨h1, h2⟩
    refine ⟨?_, h2⟩
    intro p hp
    rcases h1 p hp with ⟨q, hq, hmc, hsc⟩
    refine (checkAnswer_eq_none_iff qs p.1 p.2).mpr ⟨q, hq, ?_, hmc, hsc⟩
    intro hreq
    have hqmem := lookupQuestion_mem hq
    have hid := lookupQuestion_id hq
    have ht := h2 q hqmem hreq
    rw [hid] at ht
    have hobj : objGet ans p.1 = some p.2 :=
      objGet_eq_of_mem_nodup (by simpa using hp) hnd
    rw [hobj] at ht
    exact ht

/-- Witness for C1: a concrete accepted submission (required
multiple-choice question answered with a declared option, optional scale
question answered in range). -/
theorem claim_C1_accept_iff_witness :
    validateResponse demoQs [("q1", Value.vStr "Red"), ("q2", Value.vNum 3)] =
      Except.ok () := by
  apply (claim_C1_accept_iff demoQs
    [("q1", Value.vStr "Red"), ("q2", Value.vNum 3)] (by decide)).mpr
  constructor
  · intro p hp
    rcases List.mem_cons.mp hp with rfl | hp2
    · refine ⟨demoQ1, by decide, fun _ => ⟨"Red", by decide, rfl⟩, fun h => absurd h (by decide)⟩
    · rcases List.mem_cons.mp hp2 with rfl | hp3
      · exact ⟨demoQ2, by decide, fun h => absurd h (by decide),
          fun _ => ⟨3, rfl, by norm_num [demoQ2], by norm_num [demoQ2]⟩⟩
      · cases hp3
  · decide

/-- C7 (counterexample): with both submitted answers violating their
checks, the validator reports the violation of the entry that comes first
in the answers map, not the violation of the question that comes first in
the schema list (`q1` precedes `q2` in the schema, yet the `q2` error is
reported). -/
theorem claim_C7_counterexample :
    validateResponse demoQs [("q2", Value.vNum 10), ("q1", Value.vStr "Green")] =
      Except.error "Answer must be between 1 and 5"
    ∧ specOrderFirstErr demoQs [("q2", Value.vNum 10), ("q1", Value.vStr "Green")] =
      some "Invalid option for question \"Color\""
    ∧ ("Answer must be between 1 and 5" : String) ≠
      "Invalid option for question \"Color\"" :=
  ⟨rfl, rfl, by decide⟩

/-- C7 (amended): the validator reports the first violation encountered
while iterating the submitted answers in the insertion order of the
answers mapping, short-circuiting at it. -/
theorem claim_C7_first_violation_in_answers_order (qs : List Question)
    (pre post : List (String × Value)) (qid : String) (v : Value) (e : String)
    (hpre : ∀ p ∈ pre, checkAnswer qs p.1 p.2 = none)
    (hv : checkAnswer qs qid v = some e) :
    validateResponse qs (pre ++ (qid, v) :: post) = .error e := by
  have h1 : firstPassErr qs (pre ++ (qid, v) :: post) = some e := by
    unfold firstPassErr
    rw [List.findSome?_append]
    rw [List.findSome?_eq_none_iff.mpr hpre]
    rw [List.findSome?_cons_of_isSome _ (by rw [hv]; rfl)]
    simp [hv]
  unfold validateResponse
  rw [h1]

/-- Witness for C7 (amended): a passing first entry followed by an
out-of-range scale answer yields that scale answer's error. -/
theorem claim_C7_first_violation_witness :
    validateResponse demoQs
      ([("q1", Value.vStr "Red")] ++ ("q2", Value.vNum 10) :: []) =
      Except.error "Answer must be between 1 and 5" :=
  claim_C7_first_violation_in_answers_order demoQs [("q1", Value.vStr "Red")] []
    "q2" (Value.vNum 10) "Answer must be between 1 and 5"
    (by
      intro p hp
      rcases List.mem_cons.mp hp with rfl | h
      · rfl
      · cases h)
    rfl

/-- C5: an accepted submission deletes the survey's cached report and
cached raw-response list before `create` returns, and the next
`getResults` call recomputes a report whose `totalResponses` counts the
appended response. -/
theorem claim_C5_cache_invalidation (questions : List Question)
    (st : AnalyticsState) (sid : String) (ans : List (String × Value))
    (now : ℤ) (st2 : AnalyticsState)
    (h : createResponse questions st sid ans now = .ok st2) :
    objGet st2.analyticsCache sid = none
    ∧ objGet st2.responsesCache sid = none
    ∧ (getResults questions st2 sid).1.totalResponses
        = (st.store.filter (fun r => decide (r.surveyId = sid))).length + 1 := by
  unfold createResponse at h
  cases hv : validateResponse questions ans with
  | error e =>
      rw [hv] at h
      cases h
  | ok u =>
      cases u
      rw [hv] at h
      injection h with h
      subst h
      refine ⟨objGet_objDel_self _ _, objGet_objDel_self _ _, ?_⟩
      unfold getResults
      rw [objGet_objDel_self]
      simp only [calculateStats, List.filter_append, List.length_append]
      simp

/-- Witness for C5: submitting the demo answers on the populated demo
state empties both cache keys and the recomputed report counts two
responses. -/
theorem claim_C5_cache_invalidation_witness :
    objGet demoStAfter.analyticsCache "s1" = none
    ∧ objGet demoStAfter.responsesCache "s1" = none
    ∧ (getResults demoQs demoStAfter "s1").1.totalResponses
        = (demoSt0.store.filter (fun r => decide (r.surveyId = "s1"))).length + 1 :=
  claim_C5_cache_invalidation demoQs demoSt0 "s1" demoAnsC5 5 demoStAfter rfl

/-- C6: the CSV produced for a survey with one response is exactly the
header row built from the question labels; no data row reconstructing the
response is emitted (the conversion body is left as a TODO in the
source). -/
theorem claim_C6_csv_is_header_only :
    (calculateStats [demoQ1] [mcResp (Value.vStr "Red")]).totalResponses = 1
    ∧ convertToCSV (calculateStats [demoQ1] [mcResp (Value.vStr "Red")]) =
        "Response ID,Submitted At,Color"
    ∧ ∀ c ∈ (convertToCSV (calculateStats [demoQ1] [mcResp (Value.vStr "Red")])).toList,
        c ≠ Char.ofNat 10 :=
  ⟨rfl, by decide, by decide⟩

/-- C8: a scale question definition with both bounds present and
`min < max` but `min = 0` is rejected by the schema-level check with the
missing-bounds error (the presence test is JavaScript truthiness, under
which `0` is falsy). -/
theorem claim_C8_scale_min_zero_rejected :
    (dtoC8.vmin = some 0 ∧ dtoC8.vmax = some 10 ∧ (0 : ℚ) < 10)
    ∧ validateQuestion dtoC8 =
        .error "Scale questions must have min and max values" :=
  ⟨⟨rfl, rfl, by norm_num⟩, rfl⟩

/-- Lookup into the statistics object assembled by `calculateStats`: the
entry for a key is the record of the last schema question carrying that
id. -/
theorem calculateStats_get (qs : List Question) (rs : List Response) (k : String) :
    objGet (calculateStats qs rs).questions k =
      (lookupQuestion qs k).map (fun q => mkQuestionStats q rs) := by
  suffices h : ∀ m : List (String × QuestionStats),
      objGet (qs.foldl (fun m q => objSet m q.id (mkQuestionStats q rs)) m) k =
        (match lookupQuestion qs k with
         | some q => some (mkQuestionStats q rs)
         | none => objGet m k) by
    have h0 := h []
    unfold calculateStats
    simp only []
    rw [h0]
    cases lookupQuestion qs k <;> rfl
  induction qs with
  | nil =>
      intro m
      simp [lookupQuestion]
  | cons q rest ih =>
      intro m
      rw [List.foldl_cons, ih (objSet m q.id (mkQuestionStats q rs))]
      simp only [lookupQuestion]
      cases hr : lookupQuestion rest k with
      | some r => rfl
      | none =>
          simp only []
          by_cases hk : q.id = k
          · rw [if_pos hk]
            simp only []
            rw [← hk, objGet_objSet_self]
          · rw [if_neg hk]
            simp only []
            rw [objGet_objSet_ne m k q.id _ hk]

/-- C9: for a question whose type has no calculator case (such as
`yes_no` or `multiple_selection`), `calculateStats` leaves the `data`
field as the empty record while still setting `totalResponses` to the
count of all responses of the survey. -/
theorem claim_C9_unhandled_types_empty_data (qs : List Question)
    (rs : List Response) (q : Question)
    (hl : lookupQuestion qs q.id = some q)
    (h1 : q.qtype ≠ QType.multiple_choice) (h2 : q.qtype ≠ QType.scale)
    (h3 : q.qtype ≠ QType.text) (h4 : q.qtype ≠ QType.date) :
    objGet (calculateStats qs rs).questions q.id =
      some { question := q.text, qtype := q.qtype, totalResponses := rs.length,
             data := StatData.empty }
    ∧ (calculateStats qs rs).totalResponses = rs.length := by
  refine ⟨?_, rfl⟩
  rw [calculateStats_get, hl, Option.map_some']
  unfold mkQuestionStats statDataFor
  cases hq : q.qtype with
  | multiple_choice => exact absurd hq h1
  | scale => exact absurd hq h2
  | text => exact absurd hq h3
  | date => exact absurd hq h4
  | multiple_selection => rfl
  | yes_no => rfl

/-- Witness for C9: the demo `yes_no` question gets an empty `data`
record and `totalResponses = 1`. -/
theorem claim_C9_unhandled_types_witness :
    objGet (calculateStats [demoQ9] [demoResp0]).questions demoQ9.id =
      some { question := demoQ9.text, qtype := demoQ9.qtype,
             totalResponses := 1, data := StatData.empty }
    ∧ (calculateStats [demoQ9] [demoResp0]).totalResponses = 1 :=
  claim_C9_unhandled_types_empty_data [demoQ9] [demoResp0] demoQ9
    (by decide) (by decide) (by decide) (by decide) (by decide)

/-- The collected scale values are exactly the per-response contributions
in response order. -/
theorem scaleValues_eq_filterMap (q : Question) (rs : List Response) :
    scaleValues q rs = rs.filterMap (scaleAnswerVal q) := by
  unfold scaleValues
  suffices h : ∀ acc : List JsNum,
      rs.foldl (fun vals resp =>
        match scaleAnswerVal q resp with
        | none => vals
        | some x => vals ++ [x]) acc = acc ++ rs.filterMap (scaleAnswerVal q) by
    simpa using h []
  induction rs with
  | nil =>
      intro acc
      simp
  | cons r rest ih =>
      intro acc
      simp only [List.foldl_cons, List.filterMap_cons]
      cases ho : scaleAnswerVal q r with
      | none =>
          simp only []
          exact ih acc
      | some x =>
          simp only []
          rw [ih (acc ++ [x])]
          simp

/-- Form of `calculateScale` on a nonempty value list. -/
theorem calculateScale_nonempty (q : Question) (rs : List Response)
    (h : scaleValues q rs ≠ []) :
    calculateScale q rs =
      { average := NumOrStr.str (jsToFixed2 (jsDivNat (jsListSum (scaleValues q rs))
          (scaleValues q rs).length))
        min := jsMinList (scaleValues q rs)
        max := jsMaxList (scaleValues q rs)
        count := (scaleValues q rs).length
        distribution := some ((distRange q.vmin q.vmax).map
          (fun i => (i, ((scaleValues q rs).filter
            (fun v => decide (v = some i))).length))) } := by
  have hemp : (scaleValues q rs).isEmpty = false := by
    cases hv : scaleValues q rs with
    | nil => exact absurd hv h
    | cons a t => rfl
  simp only [calculateScale, hemp, Bool.false_eq_true, if_false]

theorem foldl_jsMin2_map_some (t : List ℚ) (a : ℚ) :
    (t.map some).foldl jsMin2 (some a) = some (t.foldl min a) := by
  induction t generalizing a with
  | nil => rfl
  | cons x xs ih =>
      simp only [List.map_cons, List.foldl_cons, jsMin2]
      exact ih (min a x)

theorem foldl_jsMax2_map_some (t : List ℚ) (a : ℚ) :
    (t.map some).foldl jsMax2 (some a) = some (t.foldl max a) := by
  induction t generalizing a with
  | nil => rfl
  | cons x xs ih =>
      simp only [List.map_cons, List.foldl_cons, jsMax2]
      exact ih (max a x)

theorem foldl_jsAdd_map_some (t : List ℚ) (a : ℚ) :
    (t.map some).foldl jsAdd (some a) = some (t.foldl (· + ·) a) := by
  induction t generalizing a with
  | nil => rfl
  | cons x xs ih =>
      simp only [List.map_cons, List.foldl_cons, jsAdd]
      exact ih (a + x)

theorem foldl_min_le_init (t : List ℚ) (a : ℚ) : t.foldl min a ≤ a := by
  induction t generalizing a with
  | nil => exact le_refl a
  | cons x xs ih => exact le_trans (ih (min a x)) (min_le_left a x)

theorem le_foldl_max_init (t : List ℚ) (a : ℚ) : a ≤ t.foldl max a := by
  induction t generalizing a with
  | nil => exact le_refl a
  | cons x xs ih => exact le_trans (le_max_left a x) (ih (max a x))

theorem foldl_add_shift (t : List ℚ) (a : ℚ) :
    t.foldl (· + ·) a = a + t.foldl (· + ·) 0 := by
  induction t generalizing a with
  | nil => simp
  | cons x xs ih =>
      simp only [List.foldl_cons]
      rw [ih (a + x), ih (0 + x)]
      ring

theorem foldl_min_mul_card_le_foldl_add (t : List ℚ) (a : ℚ) :
    (t.foldl min a) * ((t.length : ℚ) + 1) ≤ t.foldl (· + ·) a := by
  induction t generalizing a with
  | nil => simp
  | cons x xs ih =>
      simp only [List.foldl_cons, List.length_cons]
      push_cast
      have h1 := ih (min a x)
      have h2 : xs.foldl min (min a x) ≤ min a x := foldl_min_le_init xs (min a x)
      have h3 : xs.foldl (· + ·) (min a x) = min a x + xs.foldl (· + ·) 0 :=
        foldl_add_shift xs _
      have h4 : xs.foldl (· + ·) (a + x) = a + x + xs.foldl (· + ·) 0 :=
        foldl_add_shift xs _
      have h5 : min a x ≤ a := min_le_left a x
      have h6 : min a x ≤ x := min_le_right a x
      have hexp : (xs.foldl min (min a x)) * ((xs.length : ℚ) + 1 + 1)
          = (xs.foldl min (min a x)) * ((xs.length : ℚ) + 1)
            + xs.foldl min (min a x) := by ring
      rw [hexp, h4]
      rw [h3] at h1
      linarith

theorem foldl_add_le_foldl_max_mul_card (t : List ℚ) (a : ℚ) :
    t.foldl (· + ·) a ≤ (t.foldl max a) * ((t.length : ℚ) + 1) := by
  induction t generalizing a with
  | nil => simp
  | cons x xs ih =>
      simp only [List.foldl_cons, List.length_cons]
      push_cast
      have h1 := ih (max a x)
      have h2 : max a x ≤ xs.foldl max (max a x) := le_foldl_max_init xs (max a x)
      have h3 : xs.foldl (· + ·) (max a x) = max a x + xs.foldl (· + ·) 0 :=
        foldl_add_shift xs _
      have h4 : xs.foldl (· + ·) (a + x) = a + x + xs.foldl (· + ·) 0 :=
        foldl_add_shift xs _
      have h5 : a ≤ max a x := le_max_left a x
      have h6 : x ≤ max a x := le_max_right a x
      have hexp : (xs.foldl max (max a x)) * ((xs.length : ℚ) + 1 + 1)
          = (xs.foldl max (max a x)) * ((xs.length : ℚ) + 1)
            + xs.foldl max (max a x) := by ring
      rw [hexp, h4]
      rw [h3] at h1
      linarith

theorem exists_map_some {l : List JsNum} (h : ∀ v ∈ l, v.isSome = true) :
    ∃ t : List ℚ, l = t.map some := by
  induction l with
  | nil => exact ⟨[], rfl⟩
  | cons v vs ih =>
      have hv := h v (List.mem_cons_self v vs)
      rcases Option.isSome_iff_exists.mp hv with ⟨x, rfl⟩
      rcases ih (fun w hw => h w (List.mem_cons_of_mem _ hw)) with ⟨t, rfl⟩
      exact ⟨x :: t, rfl⟩

theorem ratFloor_eq_floor (q : ℚ) : Rat.floor q = ⌊q⌋ := by
  rw [Rat.floor_def' q]
  exact Rat.floor_def.symm

theorem ratCeil_eq_num {q : ℚ} (h : q.den = 1) : Rat.ceil q = q.num := by
  simp [Rat.ceil, h]

theorem mem_distRange_bounds {mn mx i : ℚ} (h : i ∈ distRange mn mx) :
    mn ≤ i ∧ i ≤ mx := by
  unfold distRange at h
  rw [ratFloor_eq_floor] at h
  by_cases hle : mn ≤ mx
  · rw [if_pos hle] at h
    rcases List.mem_map.mp h with ⟨k, hk, rfl⟩
    rw [List.mem_range] at hk
    constructor
    · have : (0 : ℚ) ≤ (k : ℚ) := Nat.cast_nonneg k
      linarith
    · have h0 : (0 : ℤ) ≤ ⌊mx - mn⌋ := Int.floor_nonneg.mpr (by linarith)
      have hkf : (k : ℤ) ≤ ⌊mx - mn⌋ := by omega
      have hc : ((k : ℤ) : ℚ) ≤ ((⌊mx - mn⌋ : ℤ) : ℚ) := by exact_mod_cast hkf
      have hfl : ((⌊mx - mn⌋ : ℤ) : ℚ) ≤ mx - mn := Int.floor_le _
      push_cast at hc
      linarith
  · rw [if_neg hle] at h
    cases h

theorem distRange_eq_intRangeList (mn mx : ℚ) (h : mn.den = 1) :
    distRange mn mx = intRangeList mn mx := by
  have hz : ((mn.num : ℤ) : ℚ) = mn := (Rat.den_eq_one_iff mn).mp h
  unfold distRange intRangeList
  rw [ratFloor_eq_floor, ratFloor_eq_floor, ratCeil_eq_num h]
  by_cases hle : mn ≤ mx
  · have hfl : ⌊mx - mn⌋ = ⌊mx⌋ - mn.num := by
      rw [← hz]
      exact Int.floor_sub_int mx mn.num
    have hnum : (0 : ℤ) ≤ ⌊mx⌋ - mn.num := by
      have : mn.num ≤ ⌊mx⌋ := Int.le_floor.mpr (by rw [hz]; exact hle)
      omega
    rw [if_pos hle, hfl]
    have hcount : Int.toNat (⌊mx⌋ - mn.num + 1) = Int.toNat (⌊mx⌋ - mn.num) + 1 := by
      omega
    rw [hcount]
    apply List.map_congr_left
    intro k hk
    push_cast
    rw [hz]
  · have hlt : ⌊mx⌋ < mn.num := by
      apply Int.floor_lt.mpr
      rw [hz]
      exact not_le.mp hle
    rw [if_neg hle]
    have hzero : Int.toNat (⌊mx⌋ - mn.num + 1) = 0 := by omega
    rw [hzero]
    rfl

/-- C2: when no response carries a non-null answer for the scale
question (so the calculator collects zero values), the result is exactly
the record `{average: 0, min: 0, max: 0, count: 0}` with no
`distribution` key. -/
theorem claim_C2_scale_zero_record (q : Question) (rs : List Response)
    (hq : q.qtype = QType.scale)
    (h : ∀ r ∈ rs, objGet r.answers q.id = none
          ∨ objGet r.answers q.id = some Value.vNull) :
    calculateScale q rs =
      { average := NumOrStr.num 0, min := some 0, max := some 0, count := 0,
        distribution := none } := by
  have hv : scaleValues q rs = [] := by
    rw [scaleValues_eq_filterMap]
    rw [List.filterMap_eq_nil_iff]
    intro r hr
    unfold scaleAnswerVal
    rcases h r hr with h0 | h0 <;> rw [h0]
  simp [calculateScale, hv]

/-- Witness for C2: a null answer and an absent answer produce the exact
zero record. -/
theorem claim_C2_scale_zero_record_witness :
    calculateScale demoQ2 demoRsNull =
      { average := NumOrStr.num 0, min := some 0, max := some 0, count := 0,
        distribution := none } :=
  claim_C2_scale_zero_record demoQ2 demoRsNull rfl (by decide)

/-- C3 (counterexample): one stored answer `"abc"` is collected into the
value list (`count = 1`, so the collection has one coerced numeric
answer), yet `min <= average` fails because every field is NaN, and in
JavaScript a comparison with NaN is false. -/
theorem claim_C3_counterexample :
    (calculateScale demoQ2 demoRsNaN).count = 1
    ∧ ¬ (jsLe (calculateScale demoQ2 demoRsNaN).min
          (jsDivNat (jsListSum (scaleValues demoQ2 demoRsNaN))
            (scaleValues demoQ2 demoRsNaN).length) = true
        ∧ jsLe (jsDivNat (jsListSum (scaleValues demoQ2 demoRsNaN))
            (scaleValues demoQ2 demoRsNaN).length)
          (calculateScale demoQ2 demoRsNaN).max = true) :=
  ⟨rfl, by decide⟩

/-- C3 (amended): when the collected value list is nonempty, every
collected value is an actual number (no NaN) and the schema minimum is an
integer, the result satisfies `min <= average <= max` and the
distribution keys are exactly the integers of `[schema.min, schema.max]`
inclusive. -/
theorem claim_C3_scale_bounds (q : Question) (rs : List Response)
    (hq : q.qtype = QType.scale)
    (hne : scaleValues q rs ≠ [])
    (hnum : ∀ v ∈ scaleValues q rs, v.isSome = true)
    (hint : q.vmin.den = 1) :
    jsLe (calculateScale q rs).min
        (jsDivNat (jsListSum (scaleValues q rs)) (scaleValues q rs).length) = true
    ∧ jsLe (jsDivNat (jsListSum (scaleValues q rs)) (scaleValues q rs).length)
        (calculateScale q rs).max = true
    ∧ ∃ d, (calculateScale q rs).distribution = some d
        ∧ d.map Prod.fst = intRangeList q.vmin q.vmax := by
  rcases exists_map_some hnum with ⟨t0, hl2⟩
  cases t0 with
  | nil =>
      rw [hl2] at hne
      simp at hne
  | cons a t =>
  rw [calculateScale_nonempty q rs hne]
  simp only []
  have hmin : jsMinList (scaleValues q rs) = some (t.foldl min a) := by
    rw [hl2]
    unfold jsMinList
    simp only [List.map_cons]
    exact foldl_jsMin2_map_some t a
  have hmax : jsMaxList (scaleValues q rs) = some (t.foldl max a) := by
    rw [hl2]
    unfold jsMaxList
    simp only [List.map_cons]
    exact foldl_jsMax2_map_some t a
  have hsum : jsListSum (scaleValues q rs) = some (t.foldl (· + ·) a) := by
    rw [hl2]
    unfold jsListSum
    simp only [List.map_cons, List.foldl_cons, jsAdd]
    rw [foldl_jsAdd_map_some t (0 + a)]
    rw [zero_add]
  have hlen : (scaleValues q rs).length = t.length + 1 := by
    rw [hl2]
    simp
  have hpos : (0 : ℚ) < (t.length : ℚ) + 1 := by positivity
  have hcast : ((t.length + 1 : ℕ) : ℚ) = (t.length : ℚ) + 1 := by push_cast; ring
  refine ⟨?_, ?_, ?_⟩
  · rw [hmin, hsum, hlen]
    unfold jsDivNat
    simp only [Option.map_some']
    rw [jsLe]
    apply decide_eq_true
    rw [hcast]
    rw [le_div_iff₀ hpos]
    exact foldl_min_mul_card_le_foldl_add t a
  · rw [hmax, hsum, hlen]
    unfold jsDivNat
    simp only [Option.map_some']
    rw [jsLe]
    apply decide_eq_true
    rw [hcast]
    rw [div_le_iff₀ hpos]
    exact foldl_add_le_foldl_max_mul_card t a
  · refine ⟨_, rfl, ?_⟩
    rw [List.map_map]
    have : (Prod.fst ∘ fun i : ℚ =>
        (i, ((scaleValues q rs).filter (fun v => decide (v = some i))).length))
        = id := by
      funext i
      rfl
    rw [this, List.map_id]
    exact (distRange_eq_intRangeList q.vmin q.vmax hint)

/-- Witness for C3 (amended): three numeric answers 5, 4, 5 on the 1..5
scale satisfy the bound and distribution-key properties. -/
theorem claim_C3_scale_bounds_witness :
    jsLe (calculateScale demoQ2 demoRsC3).min
        (jsDivNat (jsListSum (scaleValues demoQ2 demoRsC3))
          (scaleValues demoQ2 demoRsC3).length) = true
    ∧ jsLe (jsDivNat (jsListSum (scaleValues demoQ2 demoRsC3))
          (scaleValues demoQ2 demoRsC3).length)
        (calculateScale demoQ2 demoRsC3).max = true
    ∧ ∃ d, (calculateScale demoQ2 demoRsC3).distribution = some d
        ∧ d.map Prod.fst = intRangeList demoQ2.vmin demoQ2.vmax :=
  claim_C3_scale_bounds demoQ2 demoRsC3 rfl (by decide) (by decide) (by decide)

section
attribute [local semireducible] Rat.add Rat.sub Rat.mul

/-- C10: the value list contains the `Number` coercion of every present
non-null answer (NaN included); the empty string coerces to `0`, so it is
counted and can drag `min` below the schema minimum; distribution keys
always stay within `[schema.min, schema.max]`, so the distribution counts
can sum to strictly less than `count`. -/
theorem claim_C10_empty_string_counted :
    (∀ q rs, scaleValues q rs = rs.filterMap (scaleAnswerVal q))
    ∧ jsToNumber (Value.vStr "") = some 0
    ∧ (∀ (q : Question) (rs : List Response) (d : List (ℚ × ℕ)),
        (calculateScale q rs).distribution = some d →
        ∀ p ∈ d, q.vmin ≤ p.1 ∧ p.1 ≤ q.vmax)
    ∧ ((calculateScale demoQ2 demoRsC10).count = 2
        ∧ (calculateScale demoQ2 demoRsC10).min = some 0
        ∧ (0 : ℚ) < demoQ2.vmin
        ∧ ∃ d, (calculateScale demoQ2 demoRsC10).distribution = some d
            ∧ (d.map Prod.snd).sum = 1) := by
  refine ⟨scaleValues_eq_filterMap, by decide, ?_, by decide, by decide,
    by norm_num [demoQ2], ?_⟩
  · intro q rs d hd p hp
    by_cases hemp : scaleValues q rs = []
    · unfold calculateScale at hd
      rw [hemp] at hd
      cases hd
    · rw [calculateScale_nonempty q rs hemp] at hd
      simp only [Option.some.injEq] at hd
      subst hd
      rcases List.mem_map.mp hp with ⟨i, hi, rfl⟩
      exact mem_distRange_bounds hi
  · exact ⟨_, rfl, by decide⟩

end

theorem initCounts_get (opts : List String) (k : String) :
    objGet (initCounts opts) k = if k ∈ opts then some 0 else none := by
  unfold initCounts
  suffices h : ∀ m : List (String × ℕ),
      objGet (opts.foldl (fun m opt => objSet m opt 0) m) k =
        if k ∈ opts then some 0 else objGet m k by
    rw [h []]
    rfl
  induction opts with
  | nil =>
      intro m
      simp
  | cons o rest ih =>
      intro m
      rw [List.foldl_cons, ih (objSet m o 0)]
      by_cases hr : k ∈ rest
      · simp [hr, List.mem_cons]
      · by_cases ho : o = k
        · subst ho
          simp [hr, objGet_objSet_self]
        · have : ¬ k ∈ o :: rest := by
            rw [List.mem_cons]
            push_neg
            exact ⟨fun he => ho he.symm, hr⟩
          simp [hr, this, objGet_objSet_ne m k o 0 ho]

theorem objGet_mcStep_isSome (q : Question) (cnts : List (String × ℕ))
    (resp : Response) (k : String) :
    (objGet (mcStep q cnts resp) k).isSome = (objGet cnts k).isSome := by
  unfold mcStep
  cases ho : objGet resp.answers q.id with
  | none => rfl
  | some ans =>
      simp only []
      by_cases ht : truthy ans = true
      · rw [if_pos ht]
        cases hc : objGet cnts (jsToString ans) with
        | none => rfl
        | some c =>
            simp only []
            rw [objGet_objSet_isSome]
            by_cases hk : jsToString ans = k
            · subst hk
              rw [hc]
              simp
            · simp [hk]
      · rw [if_neg ht]

theorem objGet_mcCounts_isSome (q : Question) (rs : List Response) (k : String) :
    (objGet (mcCounts q rs) k).isSome = (objGet (initCounts q.options) k).isSome := by
  unfold mcCounts
  induction rs using List.reverseRecOn with
  | nil => rfl
  | append_singleton rest r ih =>
      rw [List.foldl_append, List.foldl_cons, List.foldl_nil]
      rw [objGet_mcStep_isSome]
      exact ih

theorem objGet_mcCounts_isSome_iff (q : Question) (rs : List Response) (k : String) :
    (objGet (mcCounts q rs) k).isSome = true ↔ k ∈ q.options := by
  rw [objGet_mcCounts_isSome, initCounts_get]
  by_cases h : k ∈ q.options <;> simp [h]

theorem objGet_mcStep_of_ne (q : Question) (cnts : List (String × ℕ))
    (resp : Response) (k : String)
    (h : match objGet resp.answers q.id with
         | some v => jsToString v ≠ k
         | none => True) :
    objGet (mcStep q cnts resp) k = objGet cnts k := by
  unfold mcStep
  cases ho : objGet resp.answers q.id with
  | none => rfl
  | some ans =>
      rw [ho] at h
      simp only []
      by_cases ht : truthy ans = true
      · rw [if_pos ht]
        cases hc : objGet cnts (jsToString ans) with
        | none => rfl
        | some c =>
            simp only []
            exact objGet_objSet_ne cnts k (jsToString ans) (c + 1) h
      · rw [if_neg ht]

theorem objGet_mcCounts_zero (q : Question) (rs : List Response) (k : String)
    (hk : k ∈ q.options)
    (h : ∀ r ∈ rs, (match objGet r.answers q.id with
          | some v => jsToString v ≠ k
          | none => True)) :
    objGet (mcCounts q rs) k = some 0 := by
  unfold mcCounts
  induction rs using List.reverseRecOn with
  | nil =>
      rw [List.foldl_nil, initCounts_get, if_pos hk]
  | append_singleton rest r ih =>
      rw [List.foldl_append, List.foldl_cons, List.foldl_nil]
      rw [objGet_mcStep_of_ne q _ r k (h r (by simp))]
      exact ih (fun r2 hr2 => h r2 (by simp [hr2]))

/-- C4: for every multiple-choice question the counts always sum to
`total`, every declared option is a key of `counts` (with value `0` when
no response chose it), and a response whose answer matches no declared
option contributes to neither `counts` nor `total` (and causes no
error: the calculator is total). -/
theorem claim_C4_mc_counts_sum_total (q : Question) (rs : List Response)
    (hq : q.qtype = QType.multiple_choice) :
    ((calculateMultipleChoice q rs).counts.map Prod.snd).sum
        = (calculateMultipleChoice q rs).total
    ∧ (∀ opt ∈ q.options, ∃ c, objGet (calculateMultipleChoice q rs).counts opt = some c)
    ∧ (∀ opt ∈ q.options,
        (∀ r ∈ rs, (match objGet r.answers q.id with
          | some v => jsToString v ≠ opt
          | none => True)) →
        objGet (calculateMultipleChoice q rs).counts opt = some 0)
    ∧ (∀ r : Response,
        (match objGet r.answers q.id with
          | some v => jsToString v ∉ q.options
          | none => True) →
        calculateMultipleChoice q (rs ++ [r]) = calculateMultipleChoice q rs) := by
  refine ⟨rfl, ?_, ?_, ?_⟩
  · intro opt hopt
    have h := (objGet_mcCounts_isSome_iff q rs opt).mpr hopt
    rcases Option.isSome_iff_exists.mp h with ⟨c, hc⟩
    exact ⟨c, hc⟩
  · intro opt hopt hall
    exact objGet_mcCounts_zero q rs opt hopt hall
  · intro r hr
    have hcnt : mcCounts q (rs ++ [r]) = mcCounts q rs := by
      unfold mcCounts
      rw [List.foldl_append, List.foldl_cons, List.foldl_nil]
      show mcStep q (mcCounts q rs) r = mcCounts q rs
      unfold mcStep
      cases ho : objGet r.answers q.id with
      | none => rfl
      | some ans =>
          rw [ho] at hr
          simp only []
          by_cases ht : truthy ans = true
          · rw [if_pos ht]
            have hnone : objGet (mcCounts q rs) (jsToString ans) = none := by
              rw [← Option.not_isSome_iff_eq_none]
              intro hsome
              exact hr ((objGet_mcCounts_isSome_iff q rs (jsToString ans)).mp
                (by simpa using hsome))
            rw [hnone]
          · rw [if_neg ht]
    unfold calculateMultipleChoice
    rw [hcnt]

/-- Witness for C4: one response choosing `Red`, plus an appended
response answering the undeclared option `Purple` which changes
nothing. -/
theorem claim_C4_mc_counts_sum_total_witness :
    ((calculateMultipleChoice demoQ1 [mcResp (Value.vStr "Red")]).counts.map
        Prod.snd).sum
      = (calculateMultipleChoice demoQ1 [mcResp (Value.vStr "Red")]).total
    ∧ (∃ c, objGet (calculateMultipleChoice demoQ1
        [mcResp (Value.vStr "Red")]).counts "Blue" = some c)
    ∧ objGet (calculateMultipleChoice demoQ1
        [mcResp (Value.vStr "Red")]).counts "Blue" = some 0
    ∧ calculateMultipleChoice demoQ1 ([mcResp (Value.vStr "Red")] ++ [demoRespDirty])
        = calculateMultipleChoice demoQ1 [mcResp (Value.vStr "Red")] := by
  have h := claim_C4_mc_counts_sum_total demoQ1 [mcResp (Value.vStr "Red")] rfl
  refine ⟨h.1, h.2.1 "Blue" (by decide), ?_, ?_⟩
  · apply h.2.2.1 "Blue" (by decide)
    intro r hrr
    rcases List.mem_singleton.mp hrr with rfl
    exact (by decide : jsToString (Value.vStr "Red") ≠ "Blue")
  · exact h.2.2.2 demoRespDirty
      (by decide : jsToString (Value.vStr "Purple") ∉ demoQ1.options)

end SurveyApp
